import Mathlib

/-!
Verification of the temperature-pipeline backend
(`src/services/dataService.mjs`, `src/services/mqttService.mjs`,
`src/lib/utils.mjs`) against its natural-language specification.

Temperatures are embedded as exact rationals (`ℚ`); `Math.round` is
`⌊x + 1/2⌋`, which is Mathlib's `round` on `ℚ`.
-/

namespace IoTBackend

/-- Result record of `calculateStats` (dataService.mjs lines 582-614). -/
structure Stats where
  mean : ℚ
  median : ℚ
  mode : ℚ
  min : ℚ
  max : ℚ
deriving Repr, DecidableEq

/-- JS `Math.round q = ⌊q + 1/2⌋` (ties round toward +∞), written as a
floor division so it evaluates by kernel reduction:
`q + 1/2 = (2*num + den) / (2*den)` with positive denominator. -/
def jsRound (q : ℚ) : ℤ := Int.fdiv (2 * q.num + q.den) (2 * q.den)

/-- JS `Math.round(x * 100) / 100` — round to 2 decimal places. -/
def round2 (q : ℚ) : ℚ := (jsRound (q * 100) : ℤ) / 100

/-- JS `Math.round(x * 10) / 10` — round to 1 decimal place
(used for the mode frequency keys, line 598). -/
def round1 (q : ℚ) : ℚ := (jsRound (q * 10) : ℤ) / 10

/-- JS `arr.reduce((sum, t) => sum + t, 0)`. -/
def listSum (l : List ℚ) : ℚ := l.foldl (· + ·) 0

/-- One step of populating the `frequency` object (line 597-600): the key
`k` is bumped if present, otherwise appended (JS object insertion order). -/
def bumpFreq (tbl : List (ℚ × ℕ)) (k : ℚ) : List (ℚ × ℕ) :=
  match tbl with
  | [] => [(k, 1)]
  | (k', n) :: rest =>
    if k' = k then (k', n + 1) :: rest else (k', n) :: bumpFreq rest k

/-- The `frequency` object built by `temperatures.forEach` (lines 596-600),
as an association list in insertion order. -/
def buildFreq (l : List ℚ) : List (ℚ × ℕ) :=
  l.foldl (fun t x => bumpFreq t (round1 x)) []

/-- `frequency[k]`, with 0 for an absent key. -/
def lookupFreq (tbl : List (ℚ × ℕ)) (k : ℚ) : ℕ :=
  match tbl with
  | [] => 0
  | (k', n) :: rest => if k' = k then n else lookupFreq rest k

/-- Whether the JS string form of the number `q` is an array index
(canonical non-negative integer below `2^32 - 1`).  Such object keys are
enumerated first, in ascending numeric order (ECMAScript
OrdinaryOwnPropertyKeys). -/
def isArrayIndexKey (q : ℚ) : Bool :=
  q.den == 1 && decide (0 ≤ q.num) && decide (q.num < 4294967295)

/-- `Object.keys(frequency)` (line 602): array-index-like keys in ascending
numeric order first, then the remaining keys in insertion order. -/
def enumKeys (tbl : List (ℚ × ℕ)) : List ℚ :=
  let ks := tbl.map Prod.fst
  (ks.filter (fun k => isArrayIndexKey k)).insertionSort (· ≤ ·)
    ++ ks.filter (fun k => !isArrayIndexKey k)

/-- The body of `Object.keys(frequency).reduce((a, b) =>
frequency[a] > frequency[b] ? a : b)` (lines 601-605). -/
def pickMax (f : ℚ → ℕ) (init : ℚ) (ks : List ℚ) : ℚ :=
  ks.foldl (fun a b => if f b < f a then a else b) init

/-- The `mode` computed by `calculateStats` (lines 596-605); the final
`parseFloat` maps the winning key string back to its number. -/
def modeOf (l : List ℚ) : ℚ :=
  let tbl := buildFreq l
  match enumKeys tbl with
  | [] => 0
  | k :: ks => pickMax (lookupFreq tbl) k ks

/-- `calculateStats` (dataService.mjs lines 582-614).  The copy in
`lib/utils.mjs` (lines 164-200) computes the same mean, median, mode, min
and max (its extra `roundTemperature` on the mode is the identity on
1-decimal values). -/
def calculateStats (temperatures : List ℚ) : Stats :=
  match temperatures with
  | [] => ⟨0, 0, 0, 0, 0⟩
  | t :: ts =>
    let n := temperatures.length
    let mean := listSum temperatures / (n : ℚ)
    let sorted := temperatures.insertionSort (· ≤ ·)
    let median :=
      if n % 2 = 0 then (sorted.getD (n / 2 - 1) 0 + sorted.getD (n / 2) 0) / 2
      else sorted.getD (n / 2) 0
    { mean := round2 mean
      median := round2 median
      mode := modeOf temperatures
      min := ts.foldl min t
      max := ts.foldl max t }

/-- Number of occurrences of `v` in `l`. -/
def occCount (l : List ℚ) (v : ℚ) : ℕ := (l.filter fun x => x = v).length

/-- The spec's tie-break rule for the mode, "the first-encountered tied
value wins", as its own definition (for comparison with the source's
`modeOf`): the first rounded input value whose frequency is maximal. -/
def firstMostFrequent (l : List ℚ) : Option ℚ :=
  (l.map round1).find? fun v =>
    decide (∀ w ∈ l.map round1, occCount (l.map round1) w ≤ occCount (l.map round1) v)

/-! ### Timestamps, slot keys and batch ids -/

/-- A wall-clock timestamp at minute granularity in the server's time
zone.  The code relies on local time agreeing with UTC (it mixes
`getHours()` with `toISOString()`); `month` is 0-based as returned by JS
`getMonth()`. -/
structure Timestamp where
  year : ℕ
  month : ℕ
  day : ℕ
  hour : ℕ
  minute : ℕ
deriving Repr, DecidableEq

/-- JS `String(n).padStart(2, "0")`. -/
def pad2 (n : ℕ) : String := if n < 10 then "0" ++ toString n else toString n

/-- The `YYYY-MM-DD` prefix of `toISOString()`. -/
def isoDate (t : Timestamp) : String :=
  toString t.year ++ "-" ++ pad2 (t.month + 1) ++ "-" ++ pad2 t.day

/-- `formatMinute` (lines 544-546): the `YYYY-MM-DD HH:MM` key of a
minute. -/
def formatMinute (t : Timestamp) : String :=
  isoDate t ++ " " ++ pad2 t.hour ++ ":" ++ pad2 t.minute

/-- The calendar date `new Date(getFullYear(), getMonth(), getDate())`
stored in an aggregate's `date` column. -/
def dateKey (t : Timestamp) : ℕ × ℕ × ℕ := (t.year, t.month, t.day)

/-- `generateTimeSlot` (lines 548-570): the 10-minute bucket
`HH:MM-HH:MM` containing `t`, wrapping `:60` to the next hour. -/
def generateTimeSlot (t : Timestamp) : String :=
  let slotStart := t.minute / 10 * 10
  let slotEnd := slotStart + 10
  let startTime := pad2 t.hour ++ ":" ++ pad2 slotStart
  let endTime :=
    if slotEnd = 60 then pad2 ((t.hour + 1) % 24) ++ ":00"
    else pad2 t.hour ++ ":" ++ pad2 slotEnd
  startTime ++ "-" ++ endTime

/-- `generateSixHourBatch` (lines 660-673).  The JS guard `hours >= 0` of
the first branch holds trivially for `ℕ`. -/
def generateSixHourBatch (t : Timestamp) : String :=
  let dateStr := isoDate t
  if t.hour < 6 then dateStr ++ "_00-06"
  else if t.hour < 12 then dateStr ++ "_06-12"
  else if t.hour < 18 then dateStr ++ "_12-18"
  else dateStr ++ "_18-24"

/-- Lexicographic minute encoding of a timestamp; models `Date` ordering
and `orderBy: \x7b timestamp: "asc" \x7d` (faithful to calendar order when
`month < 12`, `day ≤ 31`, `hour < 24`, `minute < 60`). -/
def tsEncode (t : Timestamp) : ℕ :=
  (((t.year * 12 + t.month) * 32 + t.day) * 24 + t.hour) * 60 + t.minute

/-! ### The database model for the aggregation pipeline -/

/-- A `temperatureBuffer` row — one RawSample. -/
structure BufRow where
  id : ℕ
  temperature : ℚ
  ts : Timestamp
  isProcessed : Bool
deriving Repr, DecidableEq

/-- A `temperatureAggregate` row — one WindowAggregate. -/
structure AggRow where
  id : ℕ
  date : ℕ × ℕ × ℕ
  timeSlot : String
  meanTemp : ℚ
  medianTemp : ℚ
  modeTemp : ℚ
  minTemp : ℚ
  maxTemp : ℚ
  sampleCount : ℕ
  isExported : Bool
  isSixHourExported : Bool
  sixHourBatch : String
deriving Repr, DecidableEq

/-- A `sixHourExport` row (file paths and timestamps are not part of the
modeled database state). -/
structure SixRow where
  batchId : String
  totalRecords : ℕ
  avgTemp : ℚ
  minTemp : ℚ
  maxTemp : ℚ
deriving Repr, DecidableEq

/-- The database tables touched by the aggregation/6-hour-export chain,
with autoincrement counters for fresh primary keys. -/
structure DB where
  buffers : List BufRow
  aggregates : List AggRow
  sixHourExports : List SixRow
  nextBufId : ℕ
  nextAggId : ℕ
deriving Repr, DecidableEq

/-- `config.requiredAggregateCount` (line 13): exactly 10 samples per
window. -/
def requiredAggregateCount : ℕ := 10

/-- `prisma.temperatureAggregate.findFirst(\x7bwhere: \x7bdate, timeSlot\x7d\x7d)`. -/
def findAgg (aggs : List AggRow) (d : ℕ × ℕ × ℕ) (sl : String) : Option AggRow :=
  aggs.find? (fun a => decide (a.date = d ∧ a.timeSlot = sl))

/-- `prisma.temperatureBuffer.deleteMany(\x7bwhere: \x7bid: \x7bin: w.map(id)\x7d\x7d\x7d)`. -/
def deleteByIds (bufs : List BufRow) (w : List BufRow) : List BufRow :=
  bufs.filter (fun r => decide (r.id ∉ w.map BufRow.id))

/-- `calculateSixHourStats` (lines 859-875): (avgTemp, minTemp, maxTemp).
Sum/min/max do not depend on the `orderBy: timeSlot` ordering of `data`. -/
def calculateSixHourStats (data : List AggRow) : ℚ × ℚ × ℚ :=
  match data with
  | [] => (0, 0, 0)
  | a :: rest =>
    (round2 (listSum (data.map AggRow.meanTemp) / (data.length : ℚ)),
     (rest.map AggRow.minTemp).foldl min a.minTemp,
     (rest.map AggRow.maxTemp).foldl max a.maxTemp)

/-- The end hour of the six-hour bucket containing `t`:
`getSixHourTimeRange` (lines 878-889) applied to `generateSixHourBatch t`
parses back the bucket's end hour. -/
def sixHourEndHour (t : Timestamp) : ℕ :=
  if t.hour < 6 then 6 else if t.hour < 12 then 12
  else if t.hour < 18 then 18 else 24

/-- The JS comparison `now < endTime` (line 715), where `endTime` is
`now`'s calendar date at `sixHourEndHour now`, minute 0. -/
def beforeBatchEnd (t : Timestamp) : Bool :=
  decide (t.hour * 60 + t.minute < sixHourEndHour t * 60)

/-- `exportSixHourData` (lines 677-796), database effects only: the CSV
and Excel writes and the Socket.IO notification do not change the
database. -/
def exportSixHourData (now : Timestamp) (db : DB) : DB :=
  let currentBatch := generateSixHourBatch now
  if (db.sixHourExports.find? (fun e => e.batchId == currentBatch)).isSome then db
  else
    let aggregateData := db.aggregates.filter
      (fun a => decide (a.sixHourBatch = currentBatch ∧ a.isSixHourExported = false))
    if aggregateData.isEmpty then db
    else if beforeBatchEnd now then db
    else
      let stats := calculateSixHourStats aggregateData
      let ids := aggregateData.map AggRow.id
      { db with
        sixHourExports := db.sixHourExports ++
          [⟨currentBatch, aggregateData.length, stats.1, stats.2.1, stats.2.2⟩]
        aggregates := db.aggregates.map fun a =>
          if a.id ∈ ids then { a with isSixHourExported := true } else a }

/-- `checkForSixHourExport` (lines 380-402): count the unexported
aggregates of the current batch and export once 36 are present. -/
def checkForSixHourExport (now : Timestamp) (db : DB) : DB :=
  let currentBatch := generateSixHourBatch now
  let aggregateCount := (db.aggregates.filter
    (fun a => decide (a.sixHourBatch = currentBatch ∧ a.isSixHourExported = false))).length
  if 36 ≤ aggregateCount then exportSixHourData now db else db

/-- The `temperatureAggregate.create` data of `performAggregation`
(lines 334-348). -/
def mkAggregate (aggId : ℕ) (w : List BufRow) (first : BufRow) : AggRow :=
  let stats := calculateStats (w.map BufRow.temperature)
  { id := aggId
    date := dateKey first.ts
    timeSlot := generateTimeSlot first.ts
    meanTemp := stats.mean
    medianTemp := stats.median
    modeTemp := stats.mode
    minTemp := stats.min
    maxTemp := stats.max
    sampleCount := w.length
    isExported := false
    isSixHourExported := false
    sixHourBatch := generateSixHourBatch first.ts }

/-- `performAggregation` (lines 276-377).  On a duplicate (date, slot) it
only deletes the consumed buffer rows; otherwise one transaction creates
the aggregate and deletes exactly the window's rows, and then
`checkForSixHourExport` runs.  (On an empty window the JS throws at
`bufferData[0]` before any write, leaving the database unchanged.) -/
def performAggregation (now : Timestamp) (db : DB) (w : List BufRow) : DB :=
  match w with
  | [] => db
  | first :: _ =>
    match findAgg db.aggregates (dateKey first.ts) (generateTimeSlot first.ts) with
    | some _ => { db with buffers := deleteByIds db.buffers w }
    | none =>
      let db1 := { db with
        aggregates := db.aggregates ++ [mkAggregate db.nextAggId w first]
        buffers := deleteByIds db.buffers w
        nextAggId := db.nextAggId + 1 }
      checkForSixHourExport now db1

/-- `orderBy: \x7b timestamp: "asc" \x7d` on buffer rows. -/
def rowLe (x y : BufRow) : Prop := tsEncode x.ts ≤ tsEncode y.ts

instance : DecidableRel rowLe := fun x y => Nat.decLe (tsEncode x.ts) (tsEncode y.ts)

/-- The window selection of `checkForAggregation` (lines 201-218): all
unprocessed buffer rows in timestamp order; if at least 10 exist, the
oldest 10. -/
def selectedWindow (db : DB) : Option (List BufRow) :=
  let unprocessed := (db.buffers.filter (fun r => r.isProcessed = false)).insertionSort rowLe
  if requiredAggregateCount ≤ unprocessed.length then
    some (unprocessed.take requiredAggregateCount)
  else none

/-- `checkForAggregation` (lines 198-273): select the window; on a
duplicate (date, slot) delete the window's rows and exit, otherwise
aggregate. -/
def checkForAggregation (now : Timestamp) (db : DB) : DB :=
  match selectedWindow db with
  | none => db
  | some [] => db
  | some (first :: rest) =>
    match findAgg db.aggregates (dateKey first.ts) (generateTimeSlot first.ts) with
    | some _ => { db with buffers := deleteByIds db.buffers (first :: rest) }
    | none => performAggregation now db (first :: rest)

/-- The (date, timeSlot) key of an aggregate row. -/
def keyOf (a : AggRow) : (ℕ × ℕ × ℕ) × String := (a.date, a.timeSlot)

/-- How often `k` occurs in a list of keys. -/
def keyCount (ks : List ((ℕ × ℕ × ℕ) × String)) (k : (ℕ × ℕ × ℕ) × String) : ℕ :=
  (ks.filter fun x => x = k).length

/-- How many aggregates carry the key `k`. -/
def aggCount (db : DB) (k : (ℕ × ℕ × ℕ) × String) : ℕ :=
  keyCount (db.aggregates.map keyOf) k

/-- At most one aggregate per (date, timeSlot) key. -/
def uniqAgg (db : DB) : Prop :=
  ∀ a ∈ db.aggregates, aggCount db (keyOf a) ≤ 1

instance (db : DB) : Decidable (uniqAgg db) :=
  inferInstanceAs (Decidable (∀ a ∈ db.aggregates, aggCount db (keyOf a) ≤ 1))

/-- The ids of the buffer rows one `checkForAggregation` run deletes. -/
def consumedIds (now : Timestamp) (db : DB) : List ℕ :=
  (db.buffers.map BufRow.id).filter fun i =>
    decide (i ∉ ((checkForAggregation now db).buffers.map BufRow.id))

/-! ### In-memory service state and ingestion -/

/-- One element of `state.bufferData` (lines 117-121). -/
structure DataPoint where
  temperature : ℚ
  ts : Timestamp
  minute : String
deriving Repr, DecidableEq

/-- The in-memory `TemperatureService` state together with the
database. -/
structure SvcState where
  bufferData : List DataPoint
  currentMinuteStartTime : Option Timestamp
  minuteDataCount : ℕ
  lastSavedMinute : Option String
  db : DB
deriving Repr, DecidableEq

/-- `config.maxBufferSize` (line 9): default 1000. -/
def maxBufferSize : ℕ := 1000

/-- `processCurrentMinuteBuffer` (lines 149-195): average the minute's
buffer, persist one buffer row stamped with the value of
`state.currentMinuteStartTime` current at call time, record
`lastSavedMinute`, then run the aggregation check.  No-op on an empty
buffer.  It does not clear `bufferData` — its callers do.
(`currentMinuteStartTime` is non-null at every call site; `getD now` is
the unreachable default.) -/
def processCurrentMinuteBuffer (now : Timestamp) (st : SvcState) : SvcState :=
  match st.bufferData with
  | [] => st
  | l =>
    let temps := l.map DataPoint.temperature
    let roundedAvg := round2 (listSum temps / (temps.length : ℚ))
    let ts := st.currentMinuteStartTime.getD now
    let db1 := { st.db with
      buffers := st.db.buffers ++ [⟨st.db.nextBufId, roundedAvg, ts, false⟩]
      nextBufId := st.db.nextBufId + 1 }
    { st with
      db := checkForAggregation now db1
      lastSavedMinute := some (formatMinute ts) }

/-- Outcome of `receiveTemperatureData`: the success payload (lines
131-138) or the rethrown invalid-temperature error (lines 90-92, 144). -/
inductive ReceiveResult
  | success (bufferSize : ℕ) (minuteCount : ℕ)
  | invalidError
deriving Repr, DecidableEq

/-- `receiveTemperatureData` (lines 87-146).  The guard accepts
temperatures in [-50, 500]; anything else throws, leaving all state
untouched.  On a minute change, `currentMinuteStartTime` moves to the new
minute first, then the previous minute's buffer is flushed, then the
buffer restarts and the incoming point is appended.  There is no
`maxBufferSize` check on this path, and `emergencyCleanup` (lines
616-634) has no caller anywhere in the repository. -/
def receiveTemperatureData (temp : ℚ) (now : Timestamp) (st : SvcState) :
    SvcState × ReceiveResult :=
  if temp < -50 ∨ 500 < temp then (st, .invalidError)
  else
    let currentMinute := formatMinute now
    let needRollover :=
      match st.currentMinuteStartTime with
      | none => true
      | some m => decide (currentMinute ≠ formatMinute m)
    let st1 :=
      if needRollover then
        let stA := { st with currentMinuteStartTime := some now }
        let stB := if stA.bufferData.isEmpty then stA
                   else processCurrentMinuteBuffer now stA
        { stB with bufferData := [], minuteDataCount := 0 }
      else st
    let st2 := { st1 with
      bufferData := st1.bufferData ++ [⟨temp, now, currentMinute⟩]
      minuteDataCount := st1.minuteDataCount + 1 }
    (st2, .success st2.bufferData.length st2.minuteDataCount)

/-! ### The MQTT ingestion boundary -/

/-- Outcome of the MQTT message handler: dropped invalid payload (warn +
early return, mqttService.mjs lines 73-76), accepted, or the caught
service error (lines 111-126). -/
inductive MsgResult
  | invalidDropped
  | accepted (bufferSize : ℕ)
  | serviceError
deriving Repr, DecidableEq

/-- The MQTT-side state that the message handler can touch. -/
structure MqttState where
  lastTemperature : ℚ
  svc : SvcState
deriving Repr, DecidableEq

/-- The MQTT `"message"` handler (mqttService.mjs lines 69-151), state
effects only (console warnings and Socket.IO emissions carry no state).
`parseFloat(message.trim())` is abstracted as `Option ℚ`, `none` standing
for a payload that parses to `NaN`. -/
def mqttOnMessage (now : Timestamp) (msg : Option ℚ) (m : MqttState) :
    MqttState × MsgResult :=
  match msg with
  | none => (m, .invalidDropped)
  | some t =>
    if t < -50 ∨ 150 < t then (m, .invalidDropped)
    else
      let m1 := { m with lastTemperature := t }
      match receiveTemperatureData t now m1.svc with
      | (st, .success n _) => ({ m1 with svc := st }, .accepted n)
      | (st, .invalidError) => ({ m1 with svc := st }, .serviceError)

namespace Race

/-!
Small-step model of the minute-flush race.  Node's event loop runs each
callback synchronously until its first `await`; the `await
prisma.temperatureBuffer.create(...)` inside `processCurrentMinuteBuffer`
(line 164) is a suspension point at which the other callback may run.
Neither `processMinuteBufferIfNeeded` nor `processCurrentMinuteBuffer`
consults the `state.isProcessing` guard (only the legacy `processBuffer`,
line 405, does), so nothing serializes the two flush paths.

A task is suspended when its pending `create` payload is `some`; the
corresponding `End` step commits the row and runs the task's remaining
code to completion.
-/

/-- Shared state: the service fields both callbacks touch, the database,
and the pending row-insert payload of each task. -/
structure State where
  bufferData : List DataPoint
  currentMinuteStartTime : Option Timestamp
  minuteDataCount : ℕ
  lastSavedMinute : Option String
  db : DB
  dataPend : Option (ℚ × Timestamp)
  timerPend : Option (ℚ × Timestamp)
deriving Repr, DecidableEq

/-- `receiveTemperatureData(temp)` run synchronously up to the row-insert
`await` (dataService.mjs lines 96-121, 150-164): the new-minute branch
moves `currentMinuteStartTime` to `now`, and — if the buffer is non-empty
— the flush computes the average, stamps it with the (already moved)
`currentMinuteStartTime`, and suspends.  With an empty buffer or no
minute change there is no await before the append, so the handler runs to
completion. -/
def dataBegin (temp : ℚ) (now : Timestamp) (s : State) : State :=
  let currentMinute := formatMinute now
  let needRollover :=
    match s.currentMinuteStartTime with
    | none => true
    | some m => decide (currentMinute ≠ formatMinute m)
  if needRollover then
    let s1 := { s with currentMinuteStartTime := some now }
    if s1.bufferData.isEmpty then
      { s1 with bufferData := [⟨temp, now, currentMinute⟩], minuteDataCount := 1 }
    else
      let temps := s1.bufferData.map DataPoint.temperature
      let avg := round2 (listSum temps / (temps.length : ℚ))
      { s1 with dataPend := some (avg, now) }
  else
    { s with
      bufferData := s.bufferData ++ [⟨temp, now, currentMinute⟩]
      minuteDataCount := s.minuteDataCount + 1 }

/-- Resumption of the data-triggered handler after its row insert: the
rest of `processCurrentMinuteBuffer` (lines 174-183) and of
`receiveTemperatureData` (lines 112-125) — record `lastSavedMinute`, run
the aggregation check, clear the buffer, append the incoming point. -/
def dataEnd (temp : ℚ) (now : Timestamp) (s : State) : State :=
  match s.dataPend with
  | none => s
  | some (avg, ts) =>
    let db1 := { s.db with
      buffers := s.db.buffers ++ [⟨s.db.nextBufId, avg, ts, false⟩]
      nextBufId := s.db.nextBufId + 1 }
    { s with
      db := checkForAggregation now db1
      lastSavedMinute := some (formatMinute ts)
      bufferData := [⟨temp, now, formatMinute now⟩]
      minuteDataCount := 1
      dataPend := none }

/-- `processMinuteBufferIfNeeded` (lines 66-85) run synchronously up to
the row-insert `await`: if the minute has changed and the buffer is
non-empty, compute the average (stamped with the current
`currentMinuteStartTime`) and suspend; otherwise complete at once. -/
def timerBegin (now : Timestamp) (s : State) : State :=
  let fire :=
    match s.currentMinuteStartTime with
    | none => false
    | some m => decide (formatMinute now ≠ formatMinute m) && !s.bufferData.isEmpty
  if fire then
    let temps := s.bufferData.map DataPoint.temperature
    let avg := round2 (listSum temps / (temps.length : ℚ))
    { s with timerPend := some (avg, s.currentMinuteStartTime.getD now) }
  else s

/-- Resumption of the timer handler: the rest of
`processCurrentMinuteBuffer` plus the reset block (lines 80-83), which
clears the buffer and moves `currentMinuteStartTime` to `now`. -/
def timerEnd (now : Timestamp) (s : State) : State :=
  match s.timerPend with
  | none => s
  | some (avg, ts) =>
    let db1 := { s.db with
      buffers := s.db.buffers ++ [⟨s.db.nextBufId, avg, ts, false⟩]
      nextBufId := s.db.nextBufId + 1 }
    { s with
      db := checkForAggregation now db1
      lastSavedMinute := some (formatMinute ts)
      bufferData := []
      minuteDataCount := 0
      currentMinuteStartTime := some now
      timerPend := none }

end Race

namespace Retention

/-!
Model of the retention chain (`cleanupOldData`, lines 907-965, and the
delete inside `exportDailyData`, lines 967-1058).  Time is minutes on an
absolute timeline (the server runs in UTC, so `setDate(d-7)` is `-7*1440`
minutes and `setHours(h-24)` is `-1440`); `date` columns are
midnight-aligned. -/

abbrev Time := ℤ

/-- A `temperatureBuffer` row as the retention chain sees it. -/
structure BufRow where
  id : ℕ
  timestamp : Time
  isProcessed : Bool
deriving Repr, DecidableEq

/-- A `temperatureAggregate` row as the retention chain sees it
(`date` is midnight-aligned). -/
structure AggRow where
  id : ℕ
  date : Time
  isExported : Bool
  isSixHourExported : Bool
deriving Repr, DecidableEq

/-- A `sixHourExport` row (creation time only). -/
structure ExpRow where
  id : ℕ
  createdAt : Time
deriving Repr, DecidableEq

/-- A `dailyTemperatureBackup` record (key only). -/
structure BackupRow where
  date : Time
deriving Repr, DecidableEq

/-- The tables touched by the retention chain. -/
structure DB where
  buffers : List BufRow
  aggregates : List AggRow
  sixHourExports : List ExpRow
  dailyBackups : List BackupRow
deriving Repr, DecidableEq

/-- `cleanupOldData` (lines 907-965): delete processed buffer rows older
than 24 h, aggregates older than 7 days with both export flags set, and
export records older than 30 days. -/
def cleanupOldData (now : Time) (db : DB) : DB :=
  { db with
    buffers := db.buffers.filter fun r =>
      !decide (r.timestamp < now - 1440 ∧ r.isProcessed = true)
    aggregates := db.aggregates.filter fun a =>
      !decide (a.date < now - 7 * 1440 ∧ a.isExported = true ∧
        a.isSixHourExported = true)
    sixHourExports := db.sixHourExports.filter fun e =>
      !decide (e.createdAt < now - 30 * 1440) }

/-- Midnight starting yesterday: `yesterday.setDate(getDate() - 1);
yesterday.setHours(0,0,0,0)` (lines 969-971). -/
def yesterdayStart (now : Time) : Time := Int.fdiv now 1440 * 1440 - 1440

/-- The `findMany` of `exportDailyData` (lines 978-989): yesterday's
aggregates that are not yet daily-exported. -/
def dailySelect (now : Time) (db : DB) : List AggRow :=
  db.aggregates.filter fun a =>
    decide (yesterdayStart now ≤ a.date ∧ a.date < yesterdayStart now + 1440 ∧
      a.isExported = false)

/-- The `updateMany` of `exportDailyData` (lines 1024-1027): mark the
selected rows daily-exported. -/
def dailyFlag (now : Time) (db : DB) : List AggRow :=
  db.aggregates.map fun a =>
    if a.id ∈ (dailySelect now db).map AggRow.id then
      { a with isExported := true }
    else a

/-- `exportDailyData` (lines 967-1058), database effects only: select
yesterday's un-exported aggregates; if none, stop; otherwise, in one
transaction, create the daily backup record, set `isExported` on the
selected rows, and delete yesterday's aggregates whose two export flags
are now both set. -/
def exportDailyData (now : Time) (db : DB) : DB :=
  if (dailySelect now db).isEmpty then db
  else
    { db with
      dailyBackups := db.dailyBackups ++ [⟨yesterdayStart now⟩]
      aggregates := (dailyFlag now db).filter fun a =>
        !decide (yesterdayStart now ≤ a.date ∧ a.date < yesterdayStart now + 1440 ∧
          a.isExported = true ∧ a.isSixHourExported = true) }

/-- The claim, stated for a retention step `f`: an aggregate is removed
only if both its export flags were true and its date lies past the 7-day
retention horizon. -/
def removalRespectsHorizon (f : Time → DB → DB) : Prop :=
  ∀ now db a, a ∈ db.aggregates →
    a.id ∉ ((f now db).aggregates.map AggRow.id) →
    a.isExported = true ∧ a.isSixHourExported = true ∧ a.date < now - 7 * 1440

end Retention

/-! ### Concrete scenarios used by witnesses and counterexamples -/

/-- 2025-01-01 10:00. -/
def minuteM : Timestamp := ⟨2025, 0, 1, 10, 0⟩

/-- 2025-01-01 10:01. -/
def minuteMp1 : Timestamp := ⟨2025, 0, 1, 10, 1⟩

/-- An empty database. -/
def emptyDB : DB := ⟨[], [], [], 0, 0⟩

/-- A fresh service state. -/
def initialSvc : SvcState := ⟨[], none, 0, none, emptyDB⟩

/-- One step of a burst: a 25 °C reading arriving within `minuteM`. -/
def ingestStep (st : SvcState) : SvcState :=
  (receiveTemperatureData 25 minuteM st).1

/-- The service state after `n` burst readings from a fresh service. -/
def burstN (n : ℕ) : SvcState := ingestStep^[n] initialSvc

namespace Race

/-- Start of the race scenario: minute M's readings 20 °C and 30 °C sit
in the buffer, `currentMinuteStartTime` is M, nothing is pending. -/
def init : State :=
  ⟨[⟨20, minuteM, formatMinute minuteM⟩, ⟨30, minuteM, formatMinute minuteM⟩],
    some minuteM, 2, none, emptyDB, none, none⟩

/-- The interleaving: within minute M+1 the fallback timer fires first
and suspends at its row insert; the data handler then runs its
minute-change flush over the same, still-uncleared buffer and suspends
too; then both inserts commit. -/
def run : State :=
  dataEnd 25 minuteMp1 (timerEnd minuteMp1
    (dataBegin 25 minuteMp1 (timerBegin minuteMp1 init)))

end Race

/-- The first of ten unprocessed buffer rows, one per minute of
10:00-10:09 on 2025-01-01 — all in slot `10:00-10:10`. -/
def tenFirst : BufRow := ⟨1, 20, ⟨2025, 0, 1, 10, 0⟩, false⟩

/-- The remaining nine rows of the window. -/
def tenRest : List BufRow :=
  [⟨2, 20, ⟨2025, 0, 1, 10, 1⟩, false⟩, ⟨3, 20, ⟨2025, 0, 1, 10, 2⟩, false⟩,
   ⟨4, 20, ⟨2025, 0, 1, 10, 3⟩, false⟩, ⟨5, 20, ⟨2025, 0, 1, 10, 4⟩, false⟩,
   ⟨6, 20, ⟨2025, 0, 1, 10, 5⟩, false⟩, ⟨7, 20, ⟨2025, 0, 1, 10, 6⟩, false⟩,
   ⟨8, 20, ⟨2025, 0, 1, 10, 7⟩, false⟩, ⟨9, 20, ⟨2025, 0, 1, 10, 8⟩, false⟩,
   ⟨10, 20, ⟨2025, 0, 1, 10, 9⟩, false⟩]

/-- Database holding the ten rows and no aggregate. -/
def dbTen : DB := ⟨tenFirst :: tenRest, [], [], 11, 0⟩

/-- An aggregate occupying (2025-01-01, `10:00-10:10`). -/
def aggDup : AggRow :=
  ⟨0, (2025, 0, 1), "10:00-10:10", 20, 20, 20, 20, 20, 10, false, false,
    "2025-01-01_06-12"⟩

/-- Database holding the ten rows and an existing aggregate for their
(date, slot). -/
def dbTenDup : DB := ⟨tenFirst :: tenRest, [aggDup], [], 11, 1⟩

namespace Retention

/-- An aggregate dated midnight of day 7 (minute 10080), six-hour
exported but not yet daily-exported. -/
def aggYesterday : AggRow := ⟨1, 7 * 1440, false, true⟩

/-- 01:00 on day 8. -/
def nowDay8 : Time := 8 * 1440 + 60

/-- Database holding just `aggYesterday`. -/
def dbYesterday : DB := ⟨[], [aggYesterday], [], []⟩

/-- A fully exported aggregate dated midnight of day 0. -/
def aggOld : AggRow := ⟨1, 0, true, true⟩

/-- Database holding just `aggOld`. -/
def dbOld : DB := ⟨[], [aggOld], [], []⟩

end Retention

/-! ## Theorems -/

set_option maxRecDepth 10000

/-- `jsRound` agrees with Mathlib's `round` on `ℚ`. -/
theorem jsRound_eq_round (q : ℚ) : jsRound q = round q := by
  have hd : (q.den : ℚ) ≠ 0 := Nat.cast_ne_zero.mpr q.den_nz
  have h : q + 1 / 2 = (((2 * q.num + (q.den : ℤ)) : ℤ) : ℚ) / (((2 * q.den : ℕ)) : ℚ) := by
    conv_lhs => rw [← Rat.num_div_den q]
    push_cast
    field_simp
    ring
  rw [round_eq, h, Rat.floor_intCast_div_natCast, jsRound,
    Int.fdiv_eq_ediv _ (by positivity)]
  push_cast
  ring_nf

/-- Prepending a fixed string is injective. -/
theorem string_append_left_cancel (s t u : String) (h : s ++ t = s ++ u) : t = u := by
  have hdata : (s ++ t).data = (s ++ u).data := congrArg String.data h
  simp only [String.data_append] at hdata
  exact String.ext (List.append_cancel_left hdata)

/-- C5: for the window [10,20,30,20,10,15,25,20,18,22], `calculateStats`
returns mean 19.0, median 20.0, mode 20, min 10 and max 30. -/
theorem calculateStats_example_window :
    calculateStats [10, 20, 30, 20, 10, 15, 25, 20, 18, 22] =
      { mean := 19, median := 20, mode := 20, min := 10, max := 30 } := by
  with_unfolding_all decide

/-- C10: on the empty list `calculateStats` is total and returns zero
for every statistic (no exception, no NaN, no infinite min/max). -/
theorem calculateStats_empty_total :
    calculateStats [] = { mean := 0, median := 0, mode := 0, min := 0, max := 0 } := rfl

/-- C6 counterexample: on [10, 20] both rounded values are tied with
frequency 1; the first-encountered tied value is 10, yet the code's mode
is 20 — the spec's "first tie wins" rule does not describe
`calculateStats`. -/
theorem mode_not_first_encountered :
    firstMostFrequent [10, 20] = some 10 ∧ (calculateStats [10, 20]).mode = 20 := by
  with_unfolding_all decide

/-- C8: a payload that parses to NaN or falls outside −50..150 is
dropped by the MQTT message handler: the state (last temperature,
in-memory buffers, database) is returned unchanged and the result is the
warn-and-return outcome, not an error. -/
theorem invalid_reading_no_side_effect (now : Timestamp) (msg : Option ℚ)
    (m : MqttState)
    (h : msg = none ∨ ∃ t, msg = some t ∧ (t < -50 ∨ 150 < t)) :
    mqttOnMessage now msg m = (m, MsgResult.invalidDropped) := by
  rcases h with h | ⟨t, rfl, ht⟩
  · subst h; rfl
  · simp only [mqttOnMessage]
    rw [if_pos ht]

/-- Witness for C8 at the out-of-range reading 200 °C. -/
theorem invalid_reading_no_side_effect_witness :
    (some (200 : ℚ) = none ∨ ∃ t, some (200 : ℚ) = some t ∧ (t < -50 ∨ 150 < t)) ∧
    mqttOnMessage minuteM (some 200) ⟨0, initialSvc⟩ =
      (⟨0, initialSvc⟩, MsgResult.invalidDropped) :=
  ⟨Or.inr ⟨200, rfl, Or.inr (by norm_num)⟩,
    invalid_reading_no_side_effect minuteM (some 200) ⟨0, initialSvc⟩
      (Or.inr ⟨200, rfl, Or.inr (by norm_num)⟩)⟩

/-- C3 (code-bug evidence): the fallback-timer flush and the
data-triggered flush of the same minute-M buffer interleave at their
row-insert `await`s (no `isProcessing` guard is consulted on this path),
and the M→M+1 crossing persists TWO RawSamples built from minute M's
readings — the claimed "exactly one" fails. -/
theorem minute_flush_race_two_rows :
    Race.run.db.buffers.map (fun r => (r.temperature, r.ts)) =
      [(25, minuteM), (25, minuteMp1)] ∧
    Race.run.db.buffers.length = 2 := by
  with_unfolding_all decide

/-- C9: every timestamp with a valid hour receives exactly one of the
four six-hour batch ids — the one whose bucket contains the hour, i.e.
index `hour / 6` — and every aggregate built by `performAggregation`
carries the batch id of its window's first sample. -/
theorem sixHourBatch_exactly_one (t : Timestamp) (h : t.hour < 24) :
    (∃! s, s ∈ ["_00-06", "_06-12", "_12-18", "_18-24"] ∧
      generateSixHourBatch t = isoDate t ++ s) ∧
    generateSixHourBatch t =
      isoDate t ++ ["_00-06", "_06-12", "_12-18", "_18-24"].getD (t.hour / 6) "" ∧
    ∀ (aggId : ℕ) (w : List BufRow) (first : BufRow),
      (mkAggregate aggId w first).sixHourBatch = generateSixHourBatch first.ts := by
  refine ⟨?_, ?_, fun aggId w first => rfl⟩
  all_goals
    rcases (by omega :
      t.hour < 6 ∨ (6 ≤ t.hour ∧ t.hour < 12) ∨ (12 ≤ t.hour ∧ t.hour < 18) ∨
        (18 ≤ t.hour ∧ t.hour < 24)) with h6 | ⟨h6, h12⟩ | ⟨h12, h18⟩ | ⟨h18, h24⟩
  case _ =>
    have hb : generateSixHourBatch t = isoDate t ++ "_00-06" := by
      unfold generateSixHourBatch; rw [if_pos (by omega)]
    exact ⟨"_00-06", ⟨by simp, hb⟩, fun s' hs' =>
      string_append_left_cancel _ _ _ (hs'.2.symm.trans hb)⟩
  case _ =>
    have hb : generateSixHourBatch t = isoDate t ++ "_06-12" := by
      unfold generateSixHourBatch; rw [if_neg (by omega), if_pos (by omega)]
    exact ⟨"_06-12", ⟨by simp, hb⟩, fun s' hs' =>
      string_append_left_cancel _ _ _ (hs'.2.symm.trans hb)⟩
  case _ =>
    have hb : generateSixHourBatch t = isoDate t ++ "_12-18" := by
      unfold generateSixHourBatch; rw [if_neg (by omega), if_neg (by omega), if_pos (by omega)]
    exact ⟨"_12-18", ⟨by simp, hb⟩, fun s' hs' =>
      string_append_left_cancel _ _ _ (hs'.2.symm.trans hb)⟩
  case _ =>
    have hb : generateSixHourBatch t = isoDate t ++ "_18-24" := by
      unfold generateSixHourBatch; rw [if_neg (by omega), if_neg (by omega), if_neg (by omega)]
    exact ⟨"_18-24", ⟨by simp, hb⟩, fun s' hs' =>
      string_append_left_cancel _ _ _ (hs'.2.symm.trans hb)⟩
  case _ =>
    have hb : generateSixHourBatch t = isoDate t ++ "_00-06" := by
      unfold generateSixHourBatch; rw [if_pos (by omega)]
    have hd : t.hour / 6 = 0 := by omega
    rw [hb, hd]; rfl
  case _ =>
    have hb : generateSixHourBatch t = isoDate t ++ "_06-12" := by
      unfold generateSixHourBatch; rw [if_neg (by omega), if_pos (by omega)]
    have hd : t.hour / 6 = 1 := by omega
    rw [hb, hd]; rfl
  case _ =>
    have hb : generateSixHourBatch t = isoDate t ++ "_12-18" := by
      unfold generateSixHourBatch; rw [if_neg (by omega), if_neg (by omega), if_pos (by omega)]
    have hd : t.hour / 6 = 2 := by omega
    rw [hb, hd]; rfl
  case _ =>
    have hb : generateSixHourBatch t = isoDate t ++ "_18-24" := by
      unfold generateSixHourBatch; rw [if_neg (by omega), if_neg (by omega), if_neg (by omega)]
    have hd : t.hour / 6 = 3 := by omega
    rw [hb, hd]; rfl

/-- Witness for C9 at 13:00. -/
theorem sixHourBatch_exactly_one_witness :
    (⟨2025, 0, 1, 13, 0⟩ : Timestamp).hour < 24 ∧
    ∃! s, s ∈ ["_00-06", "_06-12", "_12-18", "_18-24"] ∧
      generateSixHourBatch ⟨2025, 0, 1, 13, 0⟩ = isoDate ⟨2025, 0, 1, 13, 0⟩ ++ s :=
  ⟨by decide, (sixHourBatch_exactly_one ⟨2025, 0, 1, 13, 0⟩ (by decide)).1⟩

/-- A reading within the already-current minute only appends: no
rollover, no flush. -/
theorem ingestStep_same_minute (st : SvcState)
    (h : st.currentMinuteStartTime = some minuteM) :
    ingestStep st = { st with
      bufferData := st.bufferData ++ [⟨25, minuteM, formatMinute minuteM⟩]
      minuteDataCount := st.minuteDataCount + 1 } := by
  unfold ingestStep receiveTemperatureData
  rw [if_neg (by norm_num)]
  rw [h]
  simp [h]

/-- After `n + 1` same-minute readings the buffer holds `n + 1` points
and the minute marker still points at minute M. -/
theorem burstN_length (n : ℕ) :
    (burstN (n + 1)).currentMinuteStartTime = some minuteM ∧
    (burstN (n + 1)).bufferData.length = n + 1 := by
  induction n with
  | zero => constructor <;> with_unfolding_all decide
  | succ k ih =>
    have hiter : burstN (k + 2) = ingestStep (burstN (k + 1)) := by
      unfold burstN
      rw [Function.iterate_succ_apply']
    rw [hiter, ingestStep_same_minute (burstN (k + 1)) ih.1]
    constructor
    · exact ih.1
    · simp [ih.2]

/-- C7 (code-bug evidence): 1001 accepted readings inside one minute
drive `state.bufferData` to length 1001, beyond `maxBufferSize` (1000) —
no emergency flush intervenes because `emergencyCleanup` has no caller in
the repository, so the claimed bound `bufferData.length ≤ maxBufferSize`
fails. -/
theorem burst_exceeds_maxBufferSize :
    (burstN 1001).bufferData.length = 1001 ∧
    maxBufferSize < (burstN 1001).bufferData.length := by
  have h := burstN_length 1000
  refine ⟨h.2, ?_⟩
  rw [h.2]
  norm_num [maxBufferSize]

namespace Retention

/-- C2 counterexample: `exportDailyData` — part of the retention chain
the claim quantifies over — deletes `aggYesterday` (six-hour exported,
daily-exported within the same transaction) although its date is only
one day old, far inside the 7-day retention horizon. -/
theorem removalRespectsHorizon_false :
    ¬ removalRespectsHorizon exportDailyData := by
  intro hclaim
  have h := hclaim nowDay8 dbYesterday aggYesterday (by decide) (by decide)
  exact absurd h.2.2 (by decide)

/-- C2 amended: every aggregate removed by `cleanupOldData` was older
than 7 days with both export flags true, and every aggregate removed by
`exportDailyData` was six-hour-exported, dated within the previous
calendar day, and daily-exported in the same transaction — the 7-day
horizon constrains only the cleanup job, not the daily-export delete. -/
theorem retention_deletes_only_exported (now : Time) (db : DB)
    (a : AggRow) (ha : a ∈ db.aggregates) :
    (a.id ∉ ((cleanupOldData now db).aggregates.map AggRow.id) →
      a.date < now - 7 * 1440 ∧ a.isExported = true ∧ a.isSixHourExported = true) ∧
    (a.id ∉ ((exportDailyData now db).aggregates.map AggRow.id) →
      a.isSixHourExported = true ∧ yesterdayStart now ≤ a.date ∧
        a.date < yesterdayStart now + 1440) := by
  constructor
  · intro hid
    by_contra hcon
    apply hid
    apply List.mem_map_of_mem AggRow.id
    show a ∈ (cleanupOldData now db).aggregates
    simp only [cleanupOldData]
    refine List.mem_filter.mpr ⟨ha, ?_⟩
    simp only [Bool.not_eq_true', decide_eq_false_iff_not]
    exact hcon
  · intro hid
    by_cases hempty : (dailySelect now db).isEmpty
    · have heq : exportDailyData now db = db := by
        rw [exportDailyData, if_pos hempty]
      rw [heq] at hid
      exact absurd (List.mem_map_of_mem AggRow.id ha) hid
    · have heq : (exportDailyData now db).aggregates =
          (dailyFlag now db).filter fun x =>
            !decide (yesterdayStart now ≤ x.date ∧ x.date < yesterdayStart now + 1440 ∧
              x.isExported = true ∧ x.isSixHourExported = true) := by
        rw [exportDailyData, if_neg hempty]
      rw [heq] at hid
      by_contra hcon
      apply hid
      by_cases hin : a.id ∈ (dailySelect now db).map AggRow.id
      · have hmem : { a with isExported := true } ∈ dailyFlag now db := by
          rw [dailyFlag]
          exact List.mem_map.mpr ⟨a, ha, by rw [if_pos hin]⟩
        have hpred : (!decide (yesterdayStart now ≤ ({ a with isExported := true } : AggRow).date ∧
            ({ a with isExported := true } : AggRow).date < yesterdayStart now + 1440 ∧
            ({ a with isExported := true } : AggRow).isExported = true ∧
            ({ a with isExported := true } : AggRow).isSixHourExported = true)) = true := by
          simp only [Bool.not_eq_true', decide_eq_false_iff_not]
          intro hdel
          exact hcon ⟨hdel.2.2.2, hdel.1, hdel.2.1⟩
        exact List.mem_map.mpr ⟨{ a with isExported := true },
          List.mem_filter.mpr ⟨hmem, hpred⟩, rfl⟩
      · have hmem : a ∈ dailyFlag now db := by
          rw [dailyFlag]
          exact List.mem_map.mpr ⟨a, ha, by rw [if_neg hin]⟩
        have hpred : (!decide (yesterdayStart now ≤ a.date ∧
            a.date < yesterdayStart now + 1440 ∧
            a.isExported = true ∧ a.isSixHourExported = true)) = true := by
          simp only [Bool.not_eq_true', decide_eq_false_iff_not]
          intro hdel
          exact hcon ⟨hdel.2.2.2, hdel.1, hdel.2.1⟩
        exact List.mem_map.mpr ⟨a, List.mem_filter.mpr ⟨hmem, hpred⟩, rfl⟩

/-- Witness for the amended C2: `cleanupOldData` at day 8 removes the
day-0 fully exported aggregate, which indeed had both flags and was past
the horizon. -/
theorem retention_deletes_only_exported_witness :
    aggOld ∈ dbOld.aggregates ∧
    (aggOld.date < nowDay8 - 7 * 1440 ∧ aggOld.isExported = true ∧
      aggOld.isSixHourExported = true) :=
  ⟨by decide,
    (retention_deletes_only_exported nowDay8 dbOld aggOld (by decide)).1
      (by decide)⟩

end Retention

/-! ### Aggregation invariants (C1, C4) -/

/-- Counting distributes over key-list concatenation. -/
theorem keyCount_append (ks1 ks2 : List ((ℕ × ℕ × ℕ) × String))
    (k : (ℕ × ℕ × ℕ) × String) :
    keyCount (ks1 ++ ks2) k = keyCount ks1 k + keyCount ks2 k := by
  simp [keyCount, List.filter_append]

/-- Counting over a singleton key list. -/
theorem keyCount_singleton (x k : (ℕ × ℕ × ℕ) × String) :
    keyCount [x] k = if x = k then 1 else 0 := by
  by_cases h : x = k
  · simp [keyCount, List.filter_singleton, h]
  · simp [keyCount, List.filter_singleton, h]

/-- A key absent from the list has count zero. -/
theorem keyCount_eq_zero (ks : List ((ℕ × ℕ × ℕ) × String))
    (k : (ℕ × ℕ × ℕ) × String) (h : k ∉ ks) : keyCount ks k = 0 := by
  rw [keyCount, List.length_eq_zero]
  rw [List.filter_eq_nil_iff]
  intro x hx hdec
  exact h (of_decide_eq_true hdec ▸ hx)

/-- `uniqAgg` bounds every key's count, not only the keys present. -/
theorem uniqAgg_iff (db : DB) : uniqAgg db ↔ ∀ k, aggCount db k ≤ 1 := by
  constructor
  · intro h k
    by_cases hmem : k ∈ db.aggregates.map keyOf
    · obtain ⟨a, ha, rfl⟩ := List.mem_map.mp hmem
      exact h a ha
    · rw [aggCount, keyCount_eq_zero _ _ hmem]
      exact Nat.zero_le 1
  · intro h a _
    exact h (keyOf a)

/-- The 6-hour export never changes the (date, timeSlot) keys of the
aggregate table: it only flips `isSixHourExported` flags. -/
theorem exportSixHour_aggKeys (now : Timestamp) (db : DB) :
    (exportSixHourData now db).aggregates.map keyOf = db.aggregates.map keyOf := by
  simp only [exportSixHourData]
  split
  · rfl
  · split
    · rfl
    · split
      · rfl
      · simp only [List.map_map]
        apply List.map_congr_left
        intro a _
        simp only [Function.comp_apply]
        split <;> rfl

/-- The 6-hour export does not touch the buffer table. -/
theorem exportSixHour_buffers (now : Timestamp) (db : DB) :
    (exportSixHourData now db).buffers = db.buffers := by
  simp only [exportSixHourData]
  split
  · rfl
  · split
    · rfl
    · split <;> rfl

/-- `checkForSixHourExport` preserves the aggregate keys. -/
theorem checkForSixHour_aggKeys (now : Timestamp) (db : DB) :
    (checkForSixHourExport now db).aggregates.map keyOf = db.aggregates.map keyOf := by
  simp only [checkForSixHourExport]
  split
  · exact exportSixHour_aggKeys now db
  · rfl

/-- `checkForSixHourExport` does not touch the buffer table. -/
theorem checkForSixHour_buffers (now : Timestamp) (db : DB) :
    (checkForSixHourExport now db).buffers = db.buffers := by
  simp only [checkForSixHourExport]
  split
  · exact exportSixHour_buffers now db
  · rfl

/-- A failed (date, timeSlot) lookup means no aggregate carries that
key. -/
theorem findAgg_none_count (aggs : List AggRow) (d : ℕ × ℕ × ℕ) (sl : String)
    (h : findAgg aggs d sl = none) : keyCount (aggs.map keyOf) (d, sl) = 0 := by
  apply keyCount_eq_zero
  intro hmem
  obtain ⟨a, ha, hk⟩ := List.mem_map.mp hmem
  have hfalse := List.find?_eq_none.mp h a ha
  apply hfalse
  have h1 : a.date = d := congrArg Prod.fst hk
  have h2 : a.timeSlot = sl := congrArg Prod.snd hk
  simp [h1, h2]

/-- Shape of the selected window: exactly 10 rows, all unprocessed rows
of the buffer table. -/
theorem selectedWindow_spec (db : DB) (w : List BufRow)
    (h : selectedWindow db = some w) :
    w.length = requiredAggregateCount ∧
    ∀ r ∈ w, r ∈ db.buffers ∧ r.isProcessed = false := by
  simp only [selectedWindow] at h
  split at h
  case isTrue hlen =>
    have hw : ((db.buffers.filter fun r =>
        r.isProcessed = false).insertionSort rowLe).take requiredAggregateCount = w :=
      Option.some.inj h
    constructor
    · rw [← hw, List.length_take]
      exact Nat.min_eq_left hlen
    · intro r hr
      rw [← hw] at hr
      have hr2 : r ∈ (db.buffers.filter fun r =>
          r.isProcessed = false).insertionSort rowLe := List.take_subset _ _ hr
      have hr3 : r ∈ db.buffers.filter fun r => r.isProcessed = false :=
        (List.perm_insertionSort rowLe _).subset hr2
      have hr4 := List.mem_filter.mp hr3
      exact ⟨hr4.1, of_decide_eq_true hr4.2⟩
  case isFalse => exact absurd h (by simp)

/-- `checkForAggregation` either does nothing, consumes a duplicate
window, or creates the aggregate: the three branches spelled out. -/
theorem checkForAggregation_cases (now : Timestamp) (db : DB) :
    checkForAggregation now db = db ∨
    (∃ first rest e, selectedWindow db = some (first :: rest) ∧
      findAgg db.aggregates (dateKey first.ts) (generateTimeSlot first.ts) = some e ∧
      checkForAggregation now db =
        { db with buffers := deleteByIds db.buffers (first :: rest) }) ∨
    (∃ first rest, selectedWindow db = some (first :: rest) ∧
      findAgg db.aggregates (dateKey first.ts) (generateTimeSlot first.ts) = none ∧
      checkForAggregation now db = checkForSixHourExport now
        { db with
          aggregates := db.aggregates ++ [mkAggregate db.nextAggId (first :: rest) first]
          buffers := deleteByIds db.buffers (first :: rest)
          nextAggId := db.nextAggId + 1 }) := by
  rcases hsel : selectedWindow db with _ | ⟨_ | ⟨first, rest⟩⟩
  · left
    simp [checkForAggregation, hsel]
  · left
    simp [checkForAggregation, hsel]
  · rcases hfind : findAgg db.aggregates (dateKey first.ts) (generateTimeSlot first.ts) with
      _ | e
    · right; right
      refine ⟨first, rest, rfl, ?_, ?_⟩
      · rw [← hfind]
      · simp [checkForAggregation, performAggregation, hsel, hfind]
    · right; left
      refine ⟨first, rest, e, rfl, ?_, ?_⟩
      · rw [← hfind]
      · simp [checkForAggregation, hsel, hfind]

/-- One aggregation run never decreases any key's aggregate count. -/
theorem aggCount_step_ge (now : Timestamp) (db : DB) (k : (ℕ × ℕ × ℕ) × String) :
    aggCount db k ≤ aggCount (checkForAggregation now db) k := by
  rcases checkForAggregation_cases now db with h | ⟨f, r, e, _, _, h⟩ | ⟨f, r, _, hfind, h⟩
  · rw [h]
  · rw [h]
    exact le_refl _
  · rw [h, aggCount, aggCount, checkForSixHour_aggKeys]
    rw [List.map_append, keyCount_append]
    omega

/-- One aggregation run raises a key's count to 1 at most, unless the key
already had more: new aggregates are only created for absent keys. -/
theorem aggCount_step_le (now : Timestamp) (db : DB) (k : (ℕ × ℕ × ℕ) × String) :
    aggCount (checkForAggregation now db) k ≤ max (aggCount db k) 1 := by
  rcases checkForAggregation_cases now db with h | ⟨f, r, e, _, _, h⟩ | ⟨f, r, _, hfind, h⟩
  · rw [h]; exact le_max_left _ _
  · rw [h]; exact le_max_left _ _
  · rw [h, aggCount, checkForSixHour_aggKeys, List.map_append, keyCount_append]
    have hone : keyCount ([mkAggregate db.nextAggId (f :: r) f].map keyOf) k =
        if keyOf (mkAggregate db.nextAggId (f :: r) f) = k then 1 else 0 := by
      rw [List.map_singleton, keyCount_singleton]
    rw [hone]
    by_cases hk : keyOf (mkAggregate db.nextAggId (f :: r) f) = k
    · have h0 : keyCount (db.aggregates.map keyOf) k = 0 := by
        rw [← hk]
        exact findAgg_none_count db.aggregates _ _ hfind
      rw [h0, if_pos hk]
      exact le_max_right _ _
    · rw [if_neg hk, Nat.add_zero, aggCount]
      exact le_max_left _ _

/-- One aggregation run preserves key-uniqueness of the aggregate
table. -/
theorem uniqAgg_step (now : Timestamp) (db : DB) (h : uniqAgg db) :
    uniqAgg (checkForAggregation now db) := by
  rw [uniqAgg_iff] at h ⊢
  intro k
  have h1 := aggCount_step_le now db k
  have h2 := h k
  have h3 : max (aggCount db k) 1 ≤ 1 := max_le h2 le_rfl
  omega

/-- C1: under the at-most-one-aggregate-per-key invariant, running the
aggregation check twice keeps the invariant, leaves a key that had
exactly one aggregate after the first run with exactly one, and — when
the selected window's key already has an aggregate — the run only
consumes (deletes) the window's samples and creates nothing. -/
theorem aggregation_idempotent (now : Timestamp) (db : DB) (h : uniqAgg db) :
    uniqAgg (checkForAggregation now (checkForAggregation now db)) ∧
    (∀ k, aggCount (checkForAggregation now db) k = 1 →
      aggCount (checkForAggregation now (checkForAggregation now db)) k = 1) ∧
    ∀ first rest e, selectedWindow db = some (first :: rest) →
      findAgg db.aggregates (dateKey first.ts) (generateTimeSlot first.ts) = some e →
      (checkForAggregation now db).aggregates = db.aggregates ∧
      (checkForAggregation now db).buffers = deleteByIds db.buffers (first :: rest) := by
  have h1 : uniqAgg (checkForAggregation now db) := uniqAgg_step now db h
  refine ⟨uniqAgg_step now _ h1, fun k hk => ?_, fun first rest e hsel hfind => ?_⟩
  · have hge := aggCount_step_ge now (checkForAggregation now db) k
    have hle := aggCount_step_le now (checkForAggregation now db) k
    rw [hk] at hge hle
    simp only [max_self] at hle
    omega
  · constructor
    · simp [checkForAggregation, hsel, hfind]
    · simp [checkForAggregation, hsel, hfind]

/-- Witness for C1: ten fresh samples plus an existing aggregate for
their slot. -/
theorem aggregation_idempotent_witness :
    uniqAgg dbTenDup ∧
    uniqAgg (checkForAggregation minuteMp1 (checkForAggregation minuteMp1 dbTenDup)) :=
  ⟨by with_unfolding_all decide,
    (aggregation_idempotent minuteMp1 dbTenDup (by with_unfolding_all decide)).1⟩

/-- The sample ids one run consumes are gone from the database, so a
second run can never consume them again. -/
theorem consumedIds_disjoint (now now2 : Timestamp) (db : DB) :
    ∀ i ∈ consumedIds now db, i ∉ consumedIds now2 (checkForAggregation now db) := by
  intro i hi hi2
  have h1 := of_decide_eq_true (List.mem_filter.mp hi).2
  exact h1 (List.mem_filter.mp hi2).1

/-- C4: when the window's key is new, one atomic state update both
appends the aggregate — whose `sampleCount` is the window length, 10 —
and deletes exactly the window's rows; the consumed rows were unprocessed
buffer rows and are absent afterwards, and no row id is consumed by two
runs. -/
theorem aggregation_transactional (now : Timestamp) (db : DB)
    (first : BufRow) (rest : List BufRow)
    (hsel : selectedWindow db = some (first :: rest))
    (hnone : findAgg db.aggregates (dateKey first.ts) (generateTimeSlot first.ts) = none) :
    checkForAggregation now db = checkForSixHourExport now
      { db with
        aggregates := db.aggregates ++ [mkAggregate db.nextAggId (first :: rest) first]
        buffers := deleteByIds db.buffers (first :: rest)
        nextAggId := db.nextAggId + 1 } ∧
    (mkAggregate db.nextAggId (first :: rest) first).sampleCount = (first :: rest).length ∧
    (first :: rest).length = requiredAggregateCount ∧
    (checkForAggregation now db).buffers = deleteByIds db.buffers (first :: rest) ∧
    (∀ r ∈ first :: rest, r ∈ db.buffers ∧ r.isProcessed = false ∧
      r.id ∉ ((checkForAggregation now db).buffers.map BufRow.id)) ∧
    ∀ i ∈ consumedIds now db, i ∉ consumedIds now (checkForAggregation now db) := by
  have heq : checkForAggregation now db = checkForSixHourExport now
      { db with
        aggregates := db.aggregates ++ [mkAggregate db.nextAggId (first :: rest) first]
        buffers := deleteByIds db.buffers (first :: rest)
        nextAggId := db.nextAggId + 1 } := by
    simp [checkForAggregation, performAggregation, hsel, hnone]
  have hbuf : (checkForAggregation now db).buffers =
      deleteByIds db.buffers (first :: rest) := by
    rw [heq, checkForSixHour_buffers]
  have hspec := selectedWindow_spec db (first :: rest) hsel
  refine ⟨heq, rfl, hspec.1, hbuf, fun r hr => ?_, consumedIds_disjoint now now db⟩
  refine ⟨(hspec.2 r hr).1, (hspec.2 r hr).2, ?_⟩
  rw [hbuf]
  intro hidmem
  obtain ⟨rr, hrr, hid⟩ := List.mem_map.mp hidmem
  have hnotin := of_decide_eq_true (List.mem_filter.mp hrr).2
  exact hnotin (hid ▸ List.mem_map_of_mem BufRow.id hr)

/-- Witness for C4 on the ten-row database. -/
theorem aggregation_transactional_witness :
    selectedWindow dbTen = some (tenFirst :: tenRest) ∧
    findAgg dbTen.aggregates (dateKey tenFirst.ts) (generateTimeSlot tenFirst.ts) = none ∧
    (checkForAggregation minuteMp1 dbTen).buffers =
      deleteByIds dbTen.buffers (tenFirst :: tenRest) :=
  ⟨by with_unfolding_all decide, by with_unfolding_all decide,
    (aggregation_transactional minuteMp1 dbTen tenFirst tenRest
      (by with_unfolding_all decide) (by with_unfolding_all decide)).2.2.2.1⟩

/-! ### The mode's tie-break rule (C6) -/

/-- Counting over a cons cell. -/
theorem occCount_cons (y : ℚ) (t : List ℚ) (v : ℚ) :
    occCount (y :: t) v = (if y = v then 1 else 0) + occCount t v := by
  by_cases h : y = v
  · simp [occCount, List.filter_cons, h]
    omega
  · simp [occCount, List.filter_cons, h]

/-- Bumping key `k` raises exactly `k`'s frequency by one. -/
theorem lookupFreq_bumpFreq (tbl : List (ℚ × ℕ)) (k v : ℚ) :
    lookupFreq (bumpFreq tbl k) v =
      lookupFreq tbl v + (if k = v then 1 else 0) := by
  induction tbl with
  | nil =>
    by_cases h : k = v
    · simp [bumpFreq, lookupFreq, h]
    · simp [bumpFreq, lookupFreq, h]
  | cons hd rest ih =>
    obtain ⟨k0, n⟩ := hd
    by_cases h0 : k0 = k
    · subst h0
      by_cases hv : k0 = v
      · subst hv
        simp [bumpFreq, lookupFreq]
      · simp [bumpFreq, lookupFreq, hv]
    · by_cases hv : k0 = v
      · subst hv
        have hkk : ¬k = k0 := fun hh => h0 hh.symm
        simp [bumpFreq, lookupFreq, h0, hkk]
      · simp [bumpFreq, lookupFreq, h0, hv, ih]

/-- The frequency table counts the rounded occurrences: generalized over
the fold's accumulator. -/
theorem lookupFreq_foldl (l : List ℚ) (tbl : List (ℚ × ℕ)) (v : ℚ) :
    lookupFreq (l.foldl (fun t x => bumpFreq t (round1 x)) tbl) v =
      lookupFreq tbl v + occCount (l.map round1) v := by
  induction l generalizing tbl with
  | nil => simp [occCount]
  | cons x xs ih =>
    rw [List.foldl_cons, ih, lookupFreq_bumpFreq, List.map_cons, occCount_cons]
    by_cases h : round1 x = v
    · simp [h]
      omega
    · simp [h]

/-- `frequency[v]` is the number of occurrences of `v` among the rounded
inputs. -/
theorem lookupFreq_buildFreq (l : List ℚ) (v : ℚ) :
    lookupFreq (buildFreq l) v = occCount (l.map round1) v := by
  rw [buildFreq, lookupFreq_foldl]
  simp [lookupFreq]

/-- Bumping adds (at most) the bumped key to the key set. -/
theorem mem_keys_bumpFreq (tbl : List (ℚ × ℕ)) (k v : ℚ) :
    v ∈ (bumpFreq tbl k).map Prod.fst ↔ v ∈ tbl.map Prod.fst ∨ v = k := by
  induction tbl with
  | nil => simp [bumpFreq, eq_comm]
  | cons hd rest ih =>
    obtain ⟨k0, n⟩ := hd
    by_cases h0 : k0 = k
    · subst h0
      have hb : bumpFreq ((k0, n) :: rest) k0 = (k0, n + 1) :: rest := by
        simp [bumpFreq]
      rw [hb]
      simp only [List.map_cons, List.mem_cons]
      tauto
    · simp only [bumpFreq, if_neg h0, List.map_cons, List.mem_cons, ih]
      tauto

/-- The key set of the frequency fold: accumulator keys plus rounded
inputs. -/
theorem mem_keys_foldl (l : List ℚ) (tbl : List (ℚ × ℕ)) (v : ℚ) :
    v ∈ ((l.foldl (fun t x => bumpFreq t (round1 x)) tbl).map Prod.fst) ↔
      v ∈ tbl.map Prod.fst ∨ v ∈ l.map round1 := by
  induction l generalizing tbl with
  | nil => simp
  | cons x xs ih =>
    rw [List.foldl_cons, ih, mem_keys_bumpFreq]
    simp only [List.map_cons, List.mem_cons]
    tauto

/-- The keys of the frequency table are exactly the rounded inputs. -/
theorem mem_keys_buildFreq (l : List ℚ) (v : ℚ) :
    v ∈ (buildFreq l).map Prod.fst ↔ v ∈ l.map round1 := by
  rw [buildFreq, mem_keys_foldl]
  simp

/-- `Object.keys` enumeration is a permutation of the table's keys. -/
theorem enumKeys_perm (tbl : List (ℚ × ℕ)) :
    (enumKeys tbl).Perm (tbl.map Prod.fst) := by
  rw [enumKeys]
  refine List.Perm.trans (List.Perm.append_right _ (List.perm_insertionSort _ _)) ?_
  exact List.filter_append_perm _ _

/-- The JS `reduce` keeps an element of maximal score. -/
theorem pickMax_le (f : ℚ → ℕ) (ks : List ℚ) :
    ∀ init, ∀ x ∈ init :: ks, f x ≤ f (pickMax f init ks) := by
  induction ks with
  | nil =>
    intro init x hx
    rcases List.mem_cons.mp hx with rfl | hx
    · exact le_rfl
    · exact absurd hx (List.not_mem_nil x)
  | cons b t ih =>
    intro init x hx
    have hstep : pickMax f init (b :: t) =
        pickMax f (if f b < f init then init else b) t := by
      simp only [pickMax, List.foldl_cons]
    have hinit_le : f init ≤ f (if f b < f init then init else b) := by
      by_cases hb : f b < f init
      · rw [if_pos hb]
      · rw [if_neg hb]; omega
    have hb_le : f b ≤ f (if f b < f init then init else b) := by
      by_cases hb : f b < f init
      · rw [if_pos hb]; omega
      · rw [if_neg hb]
    rw [hstep]
    rcases List.mem_cons.mp hx with rfl | hx
    · exact le_trans hinit_le (ih _ _ (List.mem_cons_self _ _))
    · rcases List.mem_cons.mp hx with rfl | hx
      · exact le_trans hb_le (ih _ _ (List.mem_cons_self _ _))
      · exact ih _ x (List.mem_cons_of_mem _ hx)

/-- The JS `reduce` returns the LAST maximal element: everything after it
scores strictly lower (a tie moves the accumulator forward). -/
theorem pickMax_split (f : ℚ → ℕ) (ks : List ℚ) :
    ∀ init, ∃ pre post, init :: ks = pre ++ pickMax f init ks :: post ∧
      ∀ x ∈ post, f x < f (pickMax f init ks) := by
  induction ks with
  | nil =>
    intro init
    exact ⟨[], [], rfl, by simp⟩
  | cons b t ih =>
    intro init
    by_cases hb : f b < f init
    · have hstep : pickMax f init (b :: t) = pickMax f init t := by
        simp only [pickMax, List.foldl_cons, if_pos hb]
      obtain ⟨pre, post, heq, hpost⟩ := ih init
      cases pre with
      | nil =>
        rw [List.nil_append] at heq
        have h1 : init = pickMax f init t := (List.cons.injEq _ _ _ _).mp heq |>.1
        have h2 : t = post := (List.cons.injEq _ _ _ _).mp heq |>.2
        refine ⟨[], b :: t, ?_, ?_⟩
        · rw [hstep, List.nil_append, ← h1]
        · intro x hx
          rw [hstep]
          rcases List.mem_cons.mp hx with rfl | hx
          · rw [← h1]; exact hb
          · exact hpost x (h2 ▸ hx)
      | cons p ps =>
        rw [List.cons_append] at heq
        have h1 : init = p := (List.cons.injEq _ _ _ _).mp heq |>.1
        have h2 : t = ps ++ pickMax f init t :: post := (List.cons.injEq _ _ _ _).mp heq |>.2
        refine ⟨init :: b :: ps, post, ?_, ?_⟩
        · rw [hstep, List.cons_append, List.cons_append]
          rw [← h2]
        · intro x hx
          rw [hstep]
          exact hpost x hx
    · have hstep : pickMax f init (b :: t) = pickMax f b t := by
        simp only [pickMax, List.foldl_cons, if_neg hb]
      obtain ⟨pre, post, heq, hpost⟩ := ih b
      refine ⟨init :: pre, post, ?_, ?_⟩
      · rw [hstep, List.cons_append, ← heq]
      · intro x hx
        rw [hstep]
        exact hpost x hx

/-- C6 amended: the mode is one of the rounded input values and has
maximal frequency; on a frequency tie the LAST tied key in JS object-key
enumeration order wins (array-index-like keys in ascending numeric order
first, then the remaining keys in insertion order) — not the
first-encountered value. -/
theorem mode_last_tied_wins (l : List ℚ) (h : l ≠ []) :
    (calculateStats l).mode ∈ l.map round1 ∧
    (∀ v ∈ l.map round1,
      occCount (l.map round1) v ≤ occCount (l.map round1) ((calculateStats l).mode)) ∧
    ∃ pre post, enumKeys (buildFreq l) = pre ++ (calculateStats l).mode :: post ∧
      ∀ k ∈ post,
        occCount (l.map round1) k < occCount (l.map round1) ((calculateStats l).mode) := by
  obtain ⟨t, ts, rfl⟩ : ∃ t ts, l = t :: ts := by
    cases l with
    | nil => exact absurd rfl h
    | cons t ts => exact ⟨t, ts, rfl⟩
  have hms : (calculateStats (t :: ts)).mode = modeOf (t :: ts) := rfl
  have hperm := enumKeys_perm (buildFreq (t :: ts))
  have hne : enumKeys (buildFreq (t :: ts)) ≠ [] := by
    intro h0
    have hmem : round1 t ∈ (buildFreq (t :: ts)).map Prod.fst :=
      (mem_keys_buildFreq _ _).mpr (by simp)
    have : round1 t ∈ enumKeys (buildFreq (t :: ts)) := hperm.mem_iff.mpr hmem
    rw [h0] at this
    exact absurd this (List.not_mem_nil _)
  obtain ⟨k0, ks, henum⟩ : ∃ k0 ks, enumKeys (buildFreq (t :: ts)) = k0 :: ks := by
    cases henum : enumKeys (buildFreq (t :: ts)) with
    | nil => exact absurd henum hne
    | cons k0 ks => exact ⟨k0, ks, rfl⟩
  have hmodeof : modeOf (t :: ts) =
      pickMax (lookupFreq (buildFreq (t :: ts))) k0 ks := by
    simp only [modeOf]
    rw [henum]
  obtain ⟨pre, post, heqd, hpostd⟩ :=
    pickMax_split (lookupFreq (buildFreq (t :: ts))) ks k0
  have hrmem : modeOf (t :: ts) ∈ enumKeys (buildFreq (t :: ts)) := by
    rw [henum, hmodeof, heqd]
    exact List.mem_append_right _ (List.mem_cons_self _ _)
  have hrmem2 : modeOf (t :: ts) ∈ (t :: ts).map round1 :=
    (mem_keys_buildFreq _ _).mp (hperm.mem_iff.mp hrmem)
  refine ⟨hms ▸ hrmem2, fun v hv => ?_, pre, post, ?_, fun k hk => ?_⟩
  · have hvk : v ∈ k0 :: ks := by
      rw [← henum]
      exact hperm.mem_iff.mpr ((mem_keys_buildFreq _ _).mpr hv)
    have := pickMax_le (lookupFreq (buildFreq (t :: ts))) ks k0 v hvk
    rw [lookupFreq_buildFreq, lookupFreq_buildFreq] at this
    rw [hms, hmodeof]
    exact this
  · rw [henum, hms, hmodeof]
    exact heqd
  · have := hpostd k hk
    rw [lookupFreq_buildFreq, lookupFreq_buildFreq] at this
    rw [hms, hmodeof]
    exact this

/-- Witness for the amended C6 at the tied input [10, 20]. -/
theorem mode_last_tied_wins_witness :
    ([10, 20] : List ℚ) ≠ [] ∧
    (calculateStats [10, 20]).mode ∈ ([10, 20] : List ℚ).map round1 :=
  ⟨by decide, (mode_last_tied_wins [10, 20] (by decide)).1⟩

end IoTBackend
